import Mathlib

set_option maxRecDepth 20000

/-!
Verification of the prospecting-assistant pipeline (src/app.py) against its
natural-language specification.

Strings are modelled as lists of characters (abbreviation Str below), and the
Python string operations used by the source (substring split, strip, replace,
containment, startswith, endswith, lower, whitespace split, join) are defined
with the exact semantics of the corresponding Python methods.  The recursive
scanners take an explicit character-count fuel so that every definition is
structurally recursive and can be evaluated by the kernel on concrete input.

Remote HTTP calls are modelled as oracles: a value describing the outcome of
the call (success with a given body, a non-success status code, a timeout or a
raised exception) is passed as an argument, and the embedded function maps it
to the value the Python function returns.  The prompt text that the source
sends to the remote model only influences the remote response, which is
already arbitrary in the model, so prompt construction is not re-modelled.
-/

/-- Python strings, modelled as lists of characters. -/
abbrev Str := List Char

/-- Character list of a Lean string literal. -/
def sOf (s : String) : Str := s.data

/-- Python substring containment, needle in hay.  An empty needle is contained
in every string, as in Python. -/
def containsL (needle : Str) : Str → Bool
  | [] => needle.isEmpty
  | c :: t => needle.isPrefixOf (c :: t) || containsL needle t

/-- Fueled worker for splitOnL.  The fuel dominates the length of the subject
string, and every recursive call consumes at least one character, so the
recursion is structural in the fuel. -/
def splitOnFuel (sep : Str) : Nat → Str → List Str
  | _, [] => [[]]
  | 0, s => [s]
  | fuel + 1, c :: t =>
    if sep ≠ [] ∧ sep.isPrefixOf (c :: t) then
      [] :: splitOnFuel sep fuel (List.drop sep.length (c :: t))
    else
      match splitOnFuel sep fuel t with
      | [] => [[c]]
      | ph :: pt => (c :: ph) :: pt

/-- Python str.split(sep) for a non-empty separator: splits at every
non-overlapping occurrence of sep, scanning left to right. -/
def splitOnL (sep s : Str) : List Str := splitOnFuel sep s.length s

/-- Fueled worker for replaceL, mirroring Python str.replace: replaces every
non-overlapping occurrence of pat, scanning left to right. -/
def replaceFuel (pat rep : Str) : Nat → Str → Str
  | _, [] => []
  | 0, s => s
  | fuel + 1, c :: t =>
    if pat ≠ [] ∧ pat.isPrefixOf (c :: t) then
      rep ++ replaceFuel pat rep fuel (List.drop pat.length (c :: t))
    else
      c :: replaceFuel pat rep fuel t

/-- Python str.replace(pat, rep) for a non-empty pattern. -/
def replaceL (pat rep s : Str) : Str := replaceFuel pat rep s.length s

/-- Drop the characters satisfying p from the front of the string. -/
def lstripP (p : Char → Bool) (s : Str) : Str := s.dropWhile p

/-- Drop the characters satisfying p from the end of the string. -/
def rstripP (p : Char → Bool) (s : Str) : Str := (s.reverse.dropWhile p).reverse

/-- Drop the characters satisfying p from both ends of the string. -/
def stripP (p : Char → Bool) (s : Str) : Str := rstripP p (lstripP p s)

/-- Python str.strip() with no argument: strips whitespace from both ends. -/
def pyStrip (s : Str) : Str := stripP Char.isWhitespace s

/-- Python str.strip(c) for a one-character argument: strips that character
from both ends. -/
def stripChar (c : Char) (s : Str) : Str := stripP (fun d => d == c) s

/-- Worker for splitWsL: cur accumulates the current word, reversed. -/
def splitWsAux : Str → Str → List Str
  | [], cur => if cur = [] then [] else [cur.reverse]
  | c :: t, cur =>
    if c.isWhitespace then
      if cur = [] then splitWsAux t [] else cur.reverse :: splitWsAux t []
    else
      splitWsAux t (c :: cur)

/-- Python str.split() with no argument: splits on runs of whitespace and
never produces empty pieces. -/
def splitWsL (s : Str) : List Str := splitWsAux s []

/-- Python sep.join(pieces). -/
def joinL (sep : Str) (xs : List Str) : Str := List.intercalate sep xs

/-- Python str.lower, per character. -/
def lowerL (s : Str) : Str := s.map Char.toLower

/-- Python str.startswith. -/
def startsWithL (pre s : Str) : Bool := pre.isPrefixOf s

/-- Python str.endswith. -/
def endsWithL (sfx s : Str) : Bool := List.isSuffixOf sfx s

/-- Decimal representation of a number, as a character list. -/
def natStr (n : Nat) : Str := (toString n).data

/-- Truthiness of an optional string field of a Python dict: the key must be
present and the value must be a non-empty string. -/
def truthy (o : Option Str) : Bool := o.getD [] ≠ []

/-! ### URL Normalizer (src/app.py, extract_username_from_url) -/

/-- Embedding of extract_username_from_url: if the marker occurs in the
input, take the last piece of the split on the marker, strip slashes from
both ends, and keep what precedes the first question mark; otherwise return
the input unchanged. -/
def extract_username_from_url (profile_url : Str) : Str :=
  if containsL (sOf "/in/") profile_url then
    (splitOnL (sOf "?")
      (stripChar '/' ((splitOnL (sOf "/in/") profile_url).getLastD []))).headD []
  else profile_url

/-! ### Data model

Scraped JSON values are modelled with optional fields: a missing key is
none.  A post list entry that is not a JSON object is modelled by the none
case of PostItem, matching the isinstance checks in the source. -/

/-- The nested basic_info object of a scraped profile. -/
structure BasicInfo where
  fullname : Option Str := none
deriving DecidableEq

/-- One entry of the experience list of a scraped profile. -/
structure ExpRec where
  title : Option Str := none
  company : Option Str := none
deriving DecidableEq

/-- One scraped post object. -/
structure PostRec where
  text : Option Str := none
  timestamp : Option Int := none
deriving DecidableEq

/-- An entry of a scraped post list: none models a non-object entry. -/
abbrev PostItem := Option PostRec

/-- A scraped profile (ProfileData in the spec), restricted to the fields the
pipeline reads. -/
structure ProspectData where
  fullname : Option Str := none
  basic_info : Option BasicInfo := none
  headline : Option Str := none
  experience : List ExpRec := []
  posts : List PostItem := []

/-- The user-supplied sender mapping. -/
structure SenderInfo where
  name : Option Str := none
  role_desc : Option Str := none
  current_role : Option Str := none
  company : Option Str := none

/-! ### Job Poller (src/app.py, poll_apify_run_with_status)

The status endpoint and the dataset endpoint are modelled as oracles indexed
by the attempt number.  The embedding additionally records how many status
queries were issued and how many ten-second sleeps were performed, so that
the claims about immediate abort and about sleeping can be stated. -/

/-- Outcome of one status query: HTTP 200 with the given status string (the
source defaults a missing status field to UNKNOWN), a non-200 response, or a
raised exception. -/
inductive StatusOutcome where
  | ok (status : String)
  | httpBad
  | exn
deriving DecidableEq

/-- Outcome of a dataset fetch: HTTP 200 whose JSON body is a list, a single
object, or some other JSON value; a non-200 response; or a raised
exception. -/
inductive DatasetOutcome (α : Type) where
  | okList (items : List α)
  | okDict (item : α)
  | okOther
  | httpBad
  | exn

/-- Result of a polling run: the value returned (none models Python None)
together with the number of status queries issued and sleeps performed. -/
structure PollTrace (α : Type) where
  result : Option α
  queries : Nat
  sleeps : Nat
deriving DecidableEq

/-- One-to-one embedding of the polling loop body, structural in the
remaining fuel.  Branches follow the source exactly: SUCCEEDED fetches the
dataset and returns the first item of a non-empty list body or a single
object body, returns None on a non-200 dataset response, and otherwise falls
through to the next attempt without sleeping; FAILED, TIMED-OUT and ABORTED
return None at once; RUNNING sleeps and retries; any other status falls
through without sleeping; a non-200 status response or an exception sleeps
and retries.  Exhausted fuel returns None. -/
def pollAux {α : Type} (statusF : Nat → StatusOutcome) (dataF : Nat → DatasetOutcome α) :
    Nat → Nat → Nat → Nat → PollTrace α
  | _, 0, q, s => ⟨none, q, s⟩
  | attempt, fuel + 1, q, s =>
    match statusF attempt with
    | .exn => pollAux statusF dataF (attempt + 1) fuel (q + 1) (s + 1)
    | .httpBad => pollAux statusF dataF (attempt + 1) fuel (q + 1) (s + 1)
    | .ok st =>
      if st = "SUCCEEDED" then
        match dataF attempt with
        | .okList items =>
          match items with
          | a :: _ => ⟨some a, q + 1, s⟩
          | [] => pollAux statusF dataF (attempt + 1) fuel (q + 1) s
        | .okDict d => ⟨some d, q + 1, s⟩
        | .okOther => pollAux statusF dataF (attempt + 1) fuel (q + 1) s
        | .httpBad => ⟨none, q + 1, s⟩
        | .exn => pollAux statusF dataF (attempt + 1) fuel (q + 1) (s + 1)
      else if st = "FAILED" ∨ st = "TIMED-OUT" ∨ st = "ABORTED" then ⟨none, q + 1, s⟩
      else if st = "RUNNING" then pollAux statusF dataF (attempt + 1) fuel (q + 1) (s + 1)
      else pollAux statusF dataF (attempt + 1) fuel (q + 1) s

/-- Embedding of poll_apify_run_with_status: up to max_attempts = 60 status
queries starting at attempt 0. -/
def poll_apify_run_with_status {α : Type} (statusF : Nat → StatusOutcome)
    (dataF : Nat → DatasetOutcome α) : PollTrace α :=
  pollAux statusF dataF 0 60 0 0

/-! ### Post Fetcher and Filter (src/app.py, scrape_linkedin_posts and
filter_professional_posts) -/

/-- Thirty days in milliseconds, the window of the date filter. -/
def thirtyDaysMs : Int := 30 * 24 * 60 * 60 * 1000

/-- The date-filter loop of scrape_linkedin_posts: skip non-object entries,
skip entries whose timestamp is missing or zero (falsy), keep entries whose
timestamp, in milliseconds since the epoch, is at least thirty days before
the current wall-clock time now_ms. -/
def dateFilterLoop (now_ms : Int) : List PostItem → List PostItem
  | [] => []
  | it :: rest =>
    match it with
    | none => dateFilterLoop now_ms rest
    | some p =>
      match p.timestamp with
      | some ts =>
        if ts ≠ 0 ∧ now_ms - thirtyDaysMs ≤ ts then it :: dateFilterLoop now_ms rest
        else dateFilterLoop now_ms rest
      | none => dateFilterLoop now_ms rest

/-- JSON body of the posts-scraper response: a list of post entries, or
anything that is not a list. -/
inductive PostsBody where
  | list (data : List PostItem)
  | nonlist

/-- Outcome of the posts-scraper call: a response with a status code and a
JSON body, or a raised exception (timeouts included). -/
inductive PostsCall where
  | resp (code : Nat) (body : PostsBody)
  | exn

/-- Embedding of scrape_linkedin_posts, with the current wall-clock time in
milliseconds as an explicit parameter: a status outside 200 and 201, a
non-list body, or an exception yields the empty list; otherwise the date
filter runs and the first two survivors are returned. -/
def scrape_linkedin_posts (now_ms : Int) (call : PostsCall) : List PostItem :=
  match call with
  | .exn => []
  | .resp code body =>
    if code = 200 ∨ code = 201 then
      match body with
      | .list data => (dateFilterLoop now_ms data).take 2
      | .nonlist => []
    else []

/-- The exclusion keyword set of filter_professional_posts. -/
def exclude_keywords : List Str :=
  [sOf "hiring", sOf "job", sOf "diwali", sOf "holiday", sOf "festival", sOf "birthday",
   sOf "anniversary", sOf "wish", sOf "congrat", sOf "thank", sOf "happy"]

/-- The professional-topic keyword set of filter_professional_posts. -/
def professional_keywords : List Str :=
  [sOf "project", sOf "launch", sOf "achievement", sOf "team", sOf "lead",
   sOf "develop", sOf "build", sOf "create", sOf "innovation", sOf "growth",
   sOf "strategy", sOf "business", sOf "industry", sOf "market", sOf "tech",
   sOf "software", sOf "product", sOf "service", sOf "client", sOf "customer"]

/-- The keyword loop of filter_professional_posts: skip non-object entries,
keep an entry when its lower-cased text contains a professional keyword and
no exclusion keyword. -/
def filterProfLoop : List PostItem → List PostItem
  | [] => []
  | it :: rest =>
    match it with
    | none => filterProfLoop rest
    | some p =>
      let post_text := lowerL (p.text.getD [])
      let has_excluded := exclude_keywords.any (fun k => containsL k post_text)
      let has_professional := professional_keywords.any (fun k => containsL k post_text)
      if has_professional && !has_excluded then it :: filterProfLoop rest
      else filterProfLoop rest

/-- Embedding of filter_professional_posts: empty input short-circuits,
otherwise the keyword loop runs and the first two survivors are returned. -/
def filter_professional_posts (posts : List PostItem) : List PostItem :=
  if posts = [] then [] else (filterProfLoop posts).take 2

/-! ### Brief Generator (src/app.py, generate_research_brief) -/

/-- Outcome of the chat-completion call made by the brief generator: a
response with a status code and, when the body parses to the expected shape,
the extracted message content; a timeout; an exception inside the request
block; or an exception while serializing the profile, before the request. -/
inductive BriefCall where
  | resp (code : Nat) (content : Option Str)
  | timeout
  | exn
  | dumpExn
deriving DecidableEq

/-- Fallback sentence for a non-200 response of the brief generator. -/
def briefStatusFallback (code : Nat) : Str :=
  sOf "Research brief generation encountered an issue (Status: " ++ natStr code ++
    sOf "). The profile data is loaded and ready for message generation."

/-- Fallback sentence for a timed-out brief generation call. -/
def briefTimeoutFallback : Str :=
  sOf "Research brief generation is taking longer than expected. Profile data is loaded and ready for message generation."

/-- Fallback sentence for any other exception inside the request block. -/
def briefErrorFallback : Str :=
  sOf "Research brief service temporarily unavailable. Profile data loaded successfully."

/-- Fallback sentence for an exception raised before the request is made. -/
def briefOuterFallback : Str :=
  sOf "Profile analysis ready. Focus on message generation."

/-- Embedding of generate_research_brief.  The profile only feeds the prompt,
which the oracle already accounts for; the returned value depends on the call
outcome exactly as in the source: the model text verbatim on HTTP 200 with a
well-formed body, and one of the four fixed sentences on every failure.  The
source never raises: this embedding is total and every exception path of the
source is one of the oracle constructors. -/
def generate_research_brief (profile_data : ProspectData) (call : BriefCall) : Str :=
  match call with
  | .dumpExn => briefOuterFallback
  | .timeout => briefTimeoutFallback
  | .exn => briefErrorFallback
  | .resp code content =>
    if code = 200 then
      match content with
      | some c => c
      | none => briefErrorFallback
    else briefStatusFallback code

/-! ### Message Generator (src/app.py, analyze_and_generate_message and
generate_exact_style_fallback) -/

/-- Step 1 of analyze_and_generate_message, first-name part: the first
whitespace token of the top-level fullname when that field is truthy, else of
the nested basic_info fullname when that is truthy, else the literal
there.  A truthy fullname consisting only of whitespace also yields the
literal there, as in the source. -/
def extractName (p : ProspectData) : Str :=
  if truthy p.fullname then
    (splitWsL (p.fullname.getD [])).headD (sOf "there")
  else
    match p.basic_info with
    | some bi =>
      if truthy bi.fullname then (splitWsL (bi.fullname.getD [])).headD (sOf "there")
      else sOf "there"
    | none => sOf "there"

/-- The headline block of analyze_and_generate_message: on the at separator,
the role is the stripped piece before and the company is the second piece
stripped and then cut at the first pipe and dash separators; otherwise, on
the dash separator with at least two pieces, role and company are the first
two pieces stripped. -/
def headlineRoleCompany (headline : Str) : Str × Str :=
  if containsL (sOf " at ") headline then
    (pyStrip ((splitOnL (sOf " at ") headline).headD []),
     (splitOnL (sOf " - ")
       ((splitOnL (sOf " | ")
         (pyStrip ((splitOnL (sOf " at ") headline).getD 1 []))).headD [])).headD [])
  else if containsL (sOf " - ") headline then
    let parts := splitOnL (sOf " - ") headline
    if 2 ≤ parts.length then (pyStrip (parts.headD []), pyStrip (parts.getD 1 []))
    else ([], [])
  else ([], [])

/-- Step 1 of analyze_and_generate_message, role and company part: parse a
truthy headline with the headline block above; when the role is still empty
and the experience list is non-empty, take title and company of its first
entry. -/
def extractRoleCompany (p : ProspectData) : Str × Str :=
  let rc :=
    if truthy p.headline then headlineRoleCompany (p.headline.getD []) else ([], [])
  if rc.1 = [] ∧ p.experience ≠ [] then
    match p.experience with
    | e :: _ => (e.title.getD [], e.company.getD [])
    | [] => rc
  else rc

/-- Step 3 of analyze_and_generate_message: the sender first name is the
first whitespace token of the sender name (defaulting to Professional when
the name is missing or empty).  A truthy all-whitespace name makes the
indexing raise in the source; that is the none case here, which the caller
turns into the generic exception fallback. -/
def senderFirstName (s : SenderInfo) : Option Str :=
  let sender_name := s.name.getD (sOf "Professional")
  if sender_name ≠ [] then (splitWsL sender_name).head? else some (sOf "Professional")

/-- First template of generate_exact_style_fallback, as the source f-string
writes it. -/
def fbTemplate1 (prospect_name sender_first_name sender_role_desc
    prospect_role prospect_company : Str) : Str :=
  sOf "Hi " ++ prospect_name ++ sOf ",\nYour role " ++
  (if prospect_role ≠ [] then sOf "as " ++ prospect_role else sOf "in your position") ++
  sOf " " ++
  (if prospect_company ≠ [] then sOf "at " ++ prospect_company else []) ++
  sOf " caught my attention. " ++
  (if sender_role_desc ≠ [] then sender_role_desc
   else sOf "I focus on streamlining operations") ++
  sOf ". Would be glad to connect.\nBest,\n" ++ sender_first_name

/-- Second template of generate_exact_style_fallback. -/
def fbTemplate2 (prospect_name sender_first_name sender_role_desc
    prospect_role prospect_company : Str) : Str :=
  sOf "Hi " ++ prospect_name ++ sOf ",\n" ++
  (if prospect_company ≠ [] then sOf "Your work at " ++ prospect_company
   else sOf "Your professional work") ++
  sOf " aligns with industry shifts I\x27ve been following. " ++
  (if sender_role_desc ≠ [] then sender_role_desc
   else sOf "I\x27m exploring how automation is reshaping workflows") ++
  sOf ". Thought it\x27d be great to connect.\nBest,\n" ++ sender_first_name

/-- Third template of generate_exact_style_fallback. -/
def fbTemplate3 (prospect_name sender_first_name sender_role_desc
    prospect_role prospect_company : Str) : Str :=
  sOf "Hi " ++ prospect_name ++ sOf ",\n" ++
  (if prospect_role ≠ [] then sOf "Your focus on " ++ lowerL prospect_role
   else sOf "Your approach to professional challenges") ++
  sOf " resonates with my work. " ++
  (if sender_role_desc ≠ [] then sender_role_desc
   else sOf "I help streamline operations through technology") ++
  sOf ". Let\x27s connect and exchange perspectives.\nBest,\n" ++ sender_first_name

/-- Embedding of generate_exact_style_fallback: the three fixed templates,
interpolating prospect name, role, company, the sender role description and
the sender first name exactly as the source f-strings do. -/
def generate_exact_style_fallback (prospect_name sender_first_name sender_role_desc
    prospect_role prospect_company : Str) : List Str :=
  [fbTemplate1 prospect_name sender_first_name sender_role_desc prospect_role prospect_company,
   fbTemplate2 prospect_name sender_first_name sender_role_desc prospect_role prospect_company,
   fbTemplate3 prospect_name sender_first_name sender_role_desc prospect_role
     prospect_company].take 3

/-- The fallback used by the outer exception handler of
analyze_and_generate_message: literal there and Professional placeholders
with the sender role description. -/
def exceptFallback (sender_info : SenderInfo) : List Str :=
  generate_exact_style_fallback (sOf "there") (sOf "Professional")
    (sender_info.role_desc.getD []) (sOf "their role") (sOf "their company")

/-- State of the line-scanning parser of analyze_and_generate_message. -/
structure ParseSt where
  msgs : List Str
  cur : List Str
  collecting : Bool

/-- One iteration of the parsing loop, transcribed from the source: a line
starting with the greeting to the extracted first name (quoted or not) opens
a new message, flushing the previous accumulation when its space-join is
longer than 100 characters; while collecting, a non-empty line is appended
and a signature line (starting with Best, and containing the sender first
name case-insensitively) closes the message; otherwise a line starting with
a quoted greeting or an enumerated quoted greeting opens a new message with
quotes and enumeration prefixes removed. -/
def parseLine (prospect_name sender_first_name : Str) (st : ParseSt) (raw : Str) : ParseSt :=
  let line := pyStrip raw
  if startsWithL (sOf "Hi " ++ prospect_name ++ sOf ",") line ||
     startsWithL (sOf "\x22Hi " ++ prospect_name ++ sOf ",") line then
    let msgs :=
      if st.cur ≠ [] ∧ 100 < (joinL (sOf " ") st.cur).length then
        st.msgs ++ [pyStrip (joinL (sOf "\n") st.cur)]
      else st.msgs
    ⟨msgs, [line], true⟩
  else if st.collecting ∧ line ≠ [] then
    let cur := st.cur ++ [line]
    if startsWithL (sOf "Best,") line ∧
       containsL (lowerL sender_first_name) (lowerL line) then
      ⟨st.msgs ++ [pyStrip (joinL (sOf "\n") cur)], [], false⟩
    else ⟨st.msgs, cur, true⟩
  else if startsWithL (sOf "\x22Hi ") line || startsWithL (sOf "1. \x22Hi ") line ||
          startsWithL (sOf "2. \x22Hi ") line || startsWithL (sOf "3. \x22Hi ") line then
    let msgs :=
      if st.cur ≠ [] ∧ 100 < (joinL (sOf " ") st.cur).length then
        st.msgs ++ [pyStrip (joinL (sOf "\n") st.cur)]
      else st.msgs
    ⟨msgs,
     [replaceL (sOf "3. ") []
       (replaceL (sOf "2. ") [] (replaceL (sOf "1. ") [] (replaceL (sOf "\x22") [] line)))],
     true⟩
  else st

/-- The per-message cleaning pass of analyze_and_generate_message: strip
surrounding quotes; when the stripped message does not end with the
newline signature, either rewrite an inline signature to the newline form or
append a signature; finally remove enumeration prefixes and strip
whitespace. -/
def cleanMsg (sender_first_name : Str) (m0 : Str) : Str :=
  let m1 := stripChar '\x22' m0
  let sigNL := sOf "Best,\n" ++ sender_first_name
  let sigSP := sOf "Best, " ++ sender_first_name
  let m2 :=
    if !endsWithL sigNL (pyStrip m1) then
      if containsL sigSP m1 then replaceL sigSP sigNL m1
      else if !endsWithL sigNL m1 then m1 ++ sOf "\n" ++ sigNL
      else m1
    else m1
  pyStrip (replaceL (sOf "3. ") [] (replaceL (sOf "2. ") [] (replaceL (sOf "1. ") [] m2)))

/-- The final selection of analyze_and_generate_message: the first three
clean messages, or one to two clean messages padded with fallbacks, or the
full fallback set. -/
def selectMessages (clean_messages fallbacks : List Str) : List Str :=
  if 3 ≤ clean_messages.length then clean_messages.take 3
  else if clean_messages ≠ [] then
    clean_messages ++ fallbacks.take (3 - clean_messages.length)
  else fallbacks

/-- The HTTP 200 path of analyze_and_generate_message: strip the model text,
split it into lines, run the parsing loop, flush a pending accumulation
longer than 100 characters, clean each parsed message, keep those longer
than 100 characters, and select against the fallback templates. -/
def successPath (prospect_name sender_first_name sender_role_desc prospect_role
    prospect_company : Str) (content : Str) : List Str :=
  let lines := splitOnL (sOf "\n") (pyStrip content)
  let st := lines.foldl (parseLine prospect_name sender_first_name) ⟨[], [], false⟩
  let msgs :=
    if st.cur ≠ [] ∧ 100 < (joinL (sOf " ") st.cur).length then
      st.msgs ++ [pyStrip (joinL (sOf "\n") st.cur)]
    else st.msgs
  let clean_messages := (msgs.map (cleanMsg sender_first_name)).filter
    (fun m => 100 < m.length)
  selectMessages clean_messages
    (generate_exact_style_fallback prospect_name sender_first_name sender_role_desc
      prospect_role prospect_company)

/-- Outcome of the chat-completion call made by the message generator: a
response with a status code and, when the body parses to the expected shape,
the extracted message content; or a raised exception (timeouts included,
since this function has no separate timeout handler). -/
inductive GenCall where
  | resp (code : Nat) (content : Option Str)
  | exn
deriving DecidableEq

/-- Dispatch of analyze_and_generate_message on the call outcome, after
extraction has produced the prospect name, role, company and the sender
fields: HTTP 200 with a well-formed body runs the parser, HTTP 200 with a
malformed body raises and is caught by the outer handler, any other status
returns the fallback templates built from the extracted fields, and an
exception returns the generic exception fallback. -/
def genViaCall (prospect_name sender_first_name sender_role_desc prospect_role
    prospect_company : Str) (sender_info : SenderInfo) (call : GenCall) : List Str :=
  match call with
  | .resp code content =>
    if code = 200 then
      match content with
      | some c =>
        successPath prospect_name sender_first_name sender_role_desc prospect_role
          prospect_company c
      | none => exceptFallback sender_info
    else
      generate_exact_style_fallback prospect_name sender_first_name sender_role_desc
        prospect_role prospect_company
  | .exn => exceptFallback sender_info

/-- Embedding of analyze_and_generate_message.  The instructions and previous
message only shape the user prompt, which the call oracle already accounts
for.  The source wraps its whole body in one try block whose handler returns
the generic fallback; the only pre-call statement that can raise on a
mapping input is the sender first-name indexing, which is the none case of
senderFirstName here. -/
def analyze_and_generate_message (prospect_data : ProspectData) (sender_info : SenderInfo)
    (user_instructions previous_message : Option Str) (call : GenCall) : List Str :=
  match senderFirstName sender_info with
  | none => exceptFallback sender_info
  | some sender_first_name =>
    let prospect_name := extractName prospect_data
    let rc := extractRoleCompany prospect_data
    let sender_role_desc := sender_info.role_desc.getD []
    genViaCall prospect_name sender_first_name sender_role_desc rc.1 rc.2 sender_info call

/-! ### Specification-side definitions

These re-state, in the words of the specification, the predicates and
extraction chains that the claims describe, so that the claims can be proved
as agreements between the source embedding above and these definitions. -/

/-- A post is retained by the professional filter exactly when it is an
object whose lower-cased text contains at least one professional keyword and
no exclusion keyword. -/
def keepPost (it : PostItem) : Bool :=
  match it with
  | none => false
  | some p =>
    let t := lowerL (p.text.getD [])
    (professional_keywords.any (fun k => containsL k t)) &&
      !(exclude_keywords.any (fun k => containsL k t))

/-- A post item contains an exclusion keyword in its lower-cased text. -/
def hasExcludedKeyword (it : PostItem) : Bool :=
  match it with
  | none => false
  | some p => exclude_keywords.any (fun k => containsL k (lowerL (p.text.getD [])))

/-- A post passes the thirty-day date check: it is an object with a truthy
timestamp no older than thirty days before the given wall-clock time. -/
def passes30 (now_ms : Int) (it : PostItem) : Bool :=
  match it with
  | some p =>
    match p.timestamp with
    | some ts => ts ≠ 0 && decide (now_ms - thirtyDaysMs ≤ ts)
    | none => false
  | none => false

/-- First whitespace token of a string, with a default for the tokenless
case. -/
def firstWordOr (d s : Str) : Str := (splitWsL s).headD d

/-- An optional string field filtered by truthiness: present and
non-empty. -/
def truthyOpt (o : Option Str) : Option Str :=
  match o with
  | some s => if s = [] then none else some s
  | none => none

/-- The first-name priority chain as the specification words it: the
top-level full-name field when usable, else the nested basic-info full-name
field when usable, else the literal there; the name is the first whitespace
token of the chosen field. -/
def prospectFirstNameSpec (p : ProspectData) : Str :=
  match truthyOpt p.fullname with
  | some s => firstWordOr (sOf "there") s
  | none =>
    match p.basic_info.bind (fun bi => truthyOpt bi.fullname) with
    | some s => firstWordOr (sOf "there") s
    | none => sOf "there"

/-- Headline parsing as the specification words it: split on the at
separator first (role before it, company from the piece after it, cut at the
pipe and dash separators), failing that split on the dash separator. -/
def headlineRoleCompanySpec (h : Str) : Option (Str × Str) :=
  if containsL (sOf " at ") h then
    let parts := splitOnL (sOf " at ") h
    some (pyStrip (parts.headD []),
      (splitOnL (sOf " - ")
        ((splitOnL (sOf " | ") (pyStrip (parts.getD 1 []))).headD [])).headD [])
  else if containsL (sOf " - ") h then
    let parts := splitOnL (sOf " - ") h
    some (pyStrip (parts.headD []), pyStrip (parts.getD 1 []))
  else none

/-- The role and company priority chain as the specification words it: parse
a usable headline, and when that produced no role, fall back to title and
company of the first work-experience entry. -/
def prospectRoleCompanySpec (p : ProspectData) : Str × Str :=
  let fromHeadline :=
    match truthyOpt p.headline with
    | some h => headlineRoleCompanySpec h
    | none => none
  let rc := fromHeadline.getD ([], [])
  if rc.1 = [] then
    match p.experience with
    | e :: _ => (e.title.getD [], e.company.getD [])
    | [] => rc
  else rc

/-! ### Concrete inputs used by witnesses and counterexamples -/

/-- The prospect of the specification scenario: Jane Doe, Engineer at
Acme. -/
def janeProspect : ProspectData := ⟨some (sOf "Jane Doe"), none, some (sOf "Engineer at Acme"), [], []⟩

/-- The sender of the specification scenario: Sam, builds tools. -/
def samSender : SenderInfo := ⟨some (sOf "Sam"), some (sOf "builds tools"), none, none⟩

/-- A profile with every field missing. -/
def emptyProspect : ProspectData := ⟨none, none, none, [], []⟩

/-! ### Helper lemmas -/

theorem splitOnFuel_ne_nil (sep : Str) : ∀ (f : Nat) (s : Str), splitOnFuel sep f s ≠ [] := by
  intro f s
  match f, s with
  | f, [] => simp [splitOnFuel]
  | 0, c :: t => simp [splitOnFuel]
  | f + 1, c :: t =>
    simp only [splitOnFuel]
    split
    · simp
    · split <;> simp

theorem two_le_splitOnFuel_length (sep : Str) (hsep : sep ≠ []) :
    ∀ (s : Str) (f : Nat), s.length ≤ f → containsL sep s = true →
      2 ≤ (splitOnFuel sep f s).length := by
  intro s
  induction s with
  | nil =>
    intro f _ hcon
    simp [containsL, List.isEmpty_eq_true] at hcon
    exact absurd hcon hsep
  | cons c t ih =>
    intro f hf hcon
    obtain ⟨f', rfl⟩ : ∃ f', f = f' + 1 := ⟨f - 1, by simp at hf; omega⟩
    by_cases hp : sep.isPrefixOf (c :: t) = true
    · have hne := splitOnFuel_ne_nil sep f' (List.drop sep.length (c :: t))
      have hpos := List.length_pos.mpr hne
      simp only [splitOnFuel, hp, hsep, ne_eq, not_false_iff, true_and, if_pos]
      simp only [List.length_cons]
      omega
    · have hcon' : containsL sep t = true := by
        simp only [containsL, hp, Bool.false_or] at hcon
        exact hcon
      have ht : t.length ≤ f' := by simp at hf; omega
      have h2 := ih f' ht hcon'
      have hne := splitOnFuel_ne_nil sep f' t
      obtain ⟨ph, pt, hsplit⟩ : ∃ ph pt, splitOnFuel sep f' t = ph :: pt := by
        cases h : splitOnFuel sep f' t with
        | nil => exact absurd h hne
        | cons a b => exact ⟨a, b, rfl⟩
      have hcond : ¬(sep ≠ [] ∧ sep.isPrefixOf (c :: t) = true) := by
        intro hand
        exact hp hand.2
      simp only [splitOnFuel, hsplit, if_neg hcond]
      rw [hsplit] at h2
      simp only [List.length_cons] at h2 ⊢
      omega

theorem two_le_splitOnL_length (sep s : Str) (hsep : sep ≠ [])
    (hcon : containsL sep s = true) : 2 ≤ (splitOnL sep s).length :=
  two_le_splitOnFuel_length sep hsep s s.length le_rfl hcon

theorem all_take_of_all {α : Type} (p : α → Bool) :
    ∀ (n : Nat) (l : List α), l.all p = true → (l.take n).all p = true := by
  intro n l
  induction l generalizing n with
  | nil => intro _; simp
  | cons a t ih =>
    intro h
    cases n with
    | zero => simp
    | succ m =>
      simp only [List.all_cons, Bool.and_eq_true] at h
      simp only [List.take_succ_cons, List.all_cons, Bool.and_eq_true]
      exact ⟨h.1, ih m h.2⟩

theorem all_filter_of_imp {α : Type} (p q : α → Bool)
    (himp : ∀ x, q x = true → p x = true) :
    ∀ l : List α, (l.filter q).all p = true := by
  intro l
  induction l with
  | nil => rfl
  | cons a t ih =>
    rw [List.filter_cons]
    by_cases h : q a = true
    · simp only [h, if_pos, List.all_cons, Bool.and_eq_true]
      exact ⟨himp a h, ih⟩
    · simp only [h]
      simpa using ih

/-! ### C3 theorems: URL Normalizer -/

/-- C3 counterexample: on the example input of the specification the source
does not return jdoe; because the slash strip happens before the query strip,
the trailing slash survives. -/
theorem extract_username_spec_example_fails :
    extract_username_from_url (sOf "https://linkedin.com/in/jdoe/?x=1") ≠ sOf "jdoe" := by
  decide

/-- C3 amended: for an input containing the profile-path marker the result is
the last segment after the marker with surrounding slashes stripped first and
the part from the first question mark onward removed second, so a trailing
slash that precedes a query string survives: the example maps to jdoe/ while
inputs whose trailing slash is truly final, or whose query directly follows
the segment, map to jdoe; every input without the marker is returned
unchanged. -/
theorem extract_username_amended :
    extract_username_from_url (sOf "https://linkedin.com/in/jdoe/?x=1") = sOf "jdoe/" ∧
    extract_username_from_url (sOf "https://linkedin.com/in/jdoe/") = sOf "jdoe" ∧
    extract_username_from_url (sOf "https://linkedin.com/in/jdoe?x=1") = sOf "jdoe" ∧
    ∀ s : Str, containsL (sOf "/in/") s = false → extract_username_from_url s = s := by
  refine ⟨by decide, by decide, by decide, ?_⟩
  intro s h
  simp [extract_username_from_url, h]

/-- C3 amended witness: the universally quantified part of the amended
theorem applied at a concrete marker-free input. -/
theorem extract_username_amended_witness :
    containsL (sOf "/in/") (sOf "hello") = false ∧
      extract_username_from_url (sOf "hello") = sOf "hello" :=
  ⟨by decide, extract_username_amended.2.2.2 (sOf "hello") (by decide)⟩

/-! ### C5 theorems: professional keyword filter -/

theorem filterProfLoop_eq_filter : ∀ posts : List PostItem,
    filterProfLoop posts = posts.filter keepPost := by
  intro posts
  induction posts with
  | nil => rfl
  | cons it rest ih =>
    cases it with
    | none => simp [filterProfLoop, List.filter_cons, keepPost, ih]
    | some p =>
      simp only [filterProfLoop, List.filter_cons, keepPost, ih]

/-- C5: the professional filter returns at most 2 items; its output is
exactly the first two posts whose lower-cased text contains a professional
keyword and no exclusion keyword, in input order; and no returned item
contains an exclusion keyword. -/
theorem filter_professional_posts_spec : ∀ posts : List PostItem,
    (filter_professional_posts posts).length ≤ 2 ∧
    filter_professional_posts posts = (posts.filter keepPost).take 2 ∧
    (filter_professional_posts posts).all (fun it => !hasExcludedKeyword it) = true := by
  intro posts
  have hkeep : ∀ it : PostItem, keepPost it = true → (!hasExcludedKeyword it) = true := by
    intro it h
    cases it with
    | none => simp [hasExcludedKeyword]
    | some p =>
      simp only [keepPost, Bool.and_eq_true, Bool.not_eq_true'] at h
      simp only [hasExcludedKeyword, Bool.not_eq_true']
      exact h.2
  have heq : filter_professional_posts posts = (posts.filter keepPost).take 2 := by
    unfold filter_professional_posts
    by_cases h : posts = []
    · subst h; rfl
    · rw [if_neg h, filterProfLoop_eq_filter]
  refine ⟨?_, heq, ?_⟩
  · rw [heq]
    exact List.length_take_le 2 _
  · rw [heq]
    exact all_take_of_all _ 2 _ (all_filter_of_imp _ keepPost hkeep posts)

/-! ### C6 theorems: thirty-day date filter -/

theorem dateFilterLoop_eq_filter (now_ms : Int) : ∀ data : List PostItem,
    dateFilterLoop now_ms data = data.filter (passes30 now_ms) := by
  intro data
  induction data with
  | nil => rfl
  | cons it rest ih =>
    cases it with
    | none => simp [dateFilterLoop, List.filter_cons, passes30, ih]
    | some p =>
      cases hts : p.timestamp with
      | none => simp [dateFilterLoop, List.filter_cons, passes30, hts, ih]
      | some ts =>
        by_cases h : ts ≠ 0 ∧ now_ms - thirtyDaysMs ≤ ts
        · have hb : passes30 now_ms (some p) = true := by
            simp [passes30, hts, h.1, h.2]
          simp only [dateFilterLoop, hts]
          rw [if_pos h, List.filter_cons, if_pos hb, ih]
        · have hb : passes30 now_ms (some p) = false := by
            simp only [passes30, hts, Bool.and_eq_false_iff]
            by_cases h0 : ts = 0
            · left; simp [h0]
            · right
              simp only [decide_eq_false_iff_not]
              intro hle
              exact h ⟨h0, hle⟩
          simp only [dateFilterLoop, hts]
          rw [if_neg h, List.filter_cons, if_neg (by simp [hb]), ih]

/-- C6: on a well-formed posts response, the date filter of
scrape_linkedin_posts returns exactly the first two posts, in server order,
that are objects with a truthy timestamp within the last thirty days of the
given wall-clock time; in particular every returned post passes the
thirty-day check (so posts older than thirty days and posts without a
timestamp are always excluded) and at most two posts are returned. -/
theorem scrape_linkedin_posts_date_filter : ∀ (now_ms : Int) (data : List PostItem),
    scrape_linkedin_posts now_ms (.resp 200 (.list data)) =
      (data.filter (passes30 now_ms)).take 2 ∧
    (scrape_linkedin_posts now_ms (.resp 200 (.list data))).length ≤ 2 ∧
    (scrape_linkedin_posts now_ms (.resp 200 (.list data))).all (passes30 now_ms) = true := by
  intro now_ms data
  have heq : scrape_linkedin_posts now_ms (.resp 200 (.list data)) =
      (data.filter (passes30 now_ms)).take 2 := by
    simp [scrape_linkedin_posts, dateFilterLoop_eq_filter]
  refine ⟨heq, ?_, ?_⟩
  · rw [heq]; exact List.length_take_le 2 _
  · rw [heq]
    exact all_take_of_all _ 2 _ (all_filter_of_imp _ _ (fun _ h => h) data)

/-! ### C7 theorems: Brief Generator -/

/-- C7: the brief generator is total (the embedding maps every exception
path of the source to a returned sentence, so nothing escapes), returns the
model text verbatim on HTTP 200 with a well-formed body, and returns one of
the four fixed human-readable fallback sentences on every failure: non-200
status, timeout, an exception inside the request block (including a 200
response whose body does not parse), or an exception before the request. -/
theorem generate_research_brief_spec :
    ∀ (p : ProspectData) (c : Str) (code : Nat) (content : Option Str),
      generate_research_brief p (.resp 200 (some c)) = c ∧
      (code ≠ 200 → generate_research_brief p (.resp code content) = briefStatusFallback code) ∧
      generate_research_brief p .timeout = briefTimeoutFallback ∧
      generate_research_brief p .exn = briefErrorFallback ∧
      generate_research_brief p .dumpExn = briefOuterFallback ∧
      generate_research_brief p (.resp 200 none) = briefErrorFallback := by
  intro p c code content
  refine ⟨rfl, ?_, rfl, rfl, rfl, rfl⟩
  intro h
  simp [generate_research_brief, h]

/-- C7 witness: the non-200 branch of the brief generator theorem at a
concrete status code. -/
theorem generate_research_brief_spec_witness :
    (500 : Nat) ≠ 200 ∧
      generate_research_brief emptyProspect (.resp 500 none) = briefStatusFallback 500 :=
  ⟨by decide, (generate_research_brief_spec emptyProspect [] 500 none).2.1 (by decide)⟩

/-! ### Poller lemmas -/

theorem pollAux_step_running {α : Type} (statusF : Nat → StatusOutcome)
    (dataF : Nat → DatasetOutcome α) (attempt fuel q s : Nat)
    (h : statusF attempt = .ok "RUNNING") :
    pollAux statusF dataF attempt (fuel + 1) q s =
      pollAux statusF dataF (attempt + 1) fuel (q + 1) (s + 1) := by
  simp only [pollAux]
  rw [h]
  rfl

theorem pollAux_step_empty {α : Type} (statusF : Nat → StatusOutcome)
    (dataF : Nat → DatasetOutcome α) (attempt fuel q s : Nat)
    (hs : statusF attempt = .ok "SUCCEEDED") (hd : dataF attempt = .okList []) :
    pollAux statusF dataF attempt (fuel + 1) q s =
      pollAux statusF dataF (attempt + 1) fuel (q + 1) s := by
  simp only [pollAux]
  rw [hs, hd]
  rfl

theorem pollAux_abort {α : Type} (statusF : Nat → StatusOutcome)
    (dataF : Nat → DatasetOutcome α) (attempt fuel q s : Nat) (st : String)
    (hst : st = "FAILED" ∨ st = "TIMED-OUT" ∨ st = "ABORTED")
    (h : statusF attempt = .ok st) :
    pollAux statusF dataF attempt (fuel + 1) q s = ⟨none, q + 1, s⟩ := by
  rcases hst with rfl | rfl | rfl <;>
    · simp only [pollAux]
      rw [h]
      rfl

theorem pollAux_succeeded_list {α : Type} (statusF : Nat → StatusOutcome)
    (dataF : Nat → DatasetOutcome α) (attempt fuel q s : Nat) (a : α) (rest : List α)
    (hs : statusF attempt = .ok "SUCCEEDED") (hd : dataF attempt = .okList (a :: rest)) :
    pollAux statusF dataF attempt (fuel + 1) q s = ⟨some a, q + 1, s⟩ := by
  simp only [pollAux]
  rw [hs, hd]
  rfl

theorem pollAux_succeeded_dict {α : Type} (statusF : Nat → StatusOutcome)
    (dataF : Nat → DatasetOutcome α) (attempt fuel q s : Nat) (d : α)
    (hs : statusF attempt = .ok "SUCCEEDED") (hd : dataF attempt = .okDict d) :
    pollAux statusF dataF attempt (fuel + 1) q s = ⟨some d, q + 1, s⟩ := by
  simp only [pollAux]
  rw [hs, hd]
  rfl

theorem pollAux_running_to (α : Type) (statusF : Nat → StatusOutcome)
    (dataF : Nat → DatasetOutcome α) :
    ∀ (k attempt fuel q s : Nat), k < fuel →
      (∀ j, j < k → statusF (attempt + j) = .ok "RUNNING") →
      pollAux statusF dataF attempt fuel q s =
        pollAux statusF dataF (attempt + k) (fuel - k) (q + k) (s + k) := by
  intro k
  induction k with
  | zero => intro attempt fuel q s _ _; simp
  | succ n ih =>
    intro attempt fuel q s hk hrun
    obtain ⟨f, rfl⟩ : ∃ f, fuel = f + 1 := ⟨fuel - 1, by omega⟩
    have h0 : statusF attempt = .ok "RUNNING" := by
      have h := hrun 0 (by omega)
      simpa using h
    rw [pollAux_step_running _ _ _ _ _ _ h0]
    have hrun2 : ∀ j, j < n → statusF (attempt + 1 + j) = .ok "RUNNING" := by
      intro j hj
      have h := hrun (j + 1) (by omega)
      have e : attempt + (j + 1) = attempt + 1 + j := by omega
      rwa [e] at h
    rw [ih (attempt + 1) f (q + 1) (s + 1) (by omega) hrun2]
    have e1 : attempt + 1 + n = attempt + (n + 1) := by omega
    have e2 : f - n = f + 1 - (n + 1) := by omega
    have e3 : q + 1 + n = q + (n + 1) := by omega
    have e4 : s + 1 + n = s + (n + 1) := by omega
    rw [e1, e2, e3, e4]

theorem pollAux_all_running {α : Type} (statusF : Nat → StatusOutcome)
    (dataF : Nat → DatasetOutcome α) (h : ∀ j, statusF j = .ok "RUNNING") :
    ∀ (fuel attempt q s : Nat),
      pollAux statusF dataF attempt fuel q s = ⟨none, q + fuel, s + fuel⟩ := by
  intro fuel
  induction fuel with
  | zero => intro attempt q s; simp [pollAux]
  | succ f ih =>
    intro attempt q s
    rw [pollAux_step_running _ _ _ _ _ _ (h attempt), ih (attempt + 1) (q + 1) (s + 1)]
    have e1 : q + 1 + f = q + (f + 1) := by omega
    have e2 : s + 1 + f = s + (f + 1) := by omega
    rw [e1, e2]

theorem pollAux_all_empty {α : Type} (statusF : Nat → StatusOutcome)
    (dataF : Nat → DatasetOutcome α)
    (h : ∀ j, statusF j = .ok "SUCCEEDED" ∧ dataF j = .okList []) :
    ∀ (fuel attempt q s : Nat),
      pollAux statusF dataF attempt fuel q s = ⟨none, q + fuel, s⟩ := by
  intro fuel
  induction fuel with
  | zero => intro attempt q s; simp [pollAux]
  | succ f ih =>
    intro attempt q s
    rw [pollAux_step_empty _ _ _ _ _ _ (h attempt).1 (h attempt).2, ih (attempt + 1) (q + 1) s]
    have e1 : q + 1 + f = q + (f + 1) := by omega
    rw [e1]

/-! ### C2 theorems: Job Poller -/

/-- C2: with the status endpoint modelled as a sequence of responses, the
poller returns the first item of a non-empty dataset list (or the single
object) when SUCCEEDED arrives at some attempt below 60 after RUNNING
responses; returns null after exactly one status query when the first
attempt reports FAILED, TIMED-OUT or ABORTED; and returns null after exactly
60 status queries when every attempt reports RUNNING. -/
theorem poll_apify_run_with_status_spec (α : Type) :
    (∀ (statusF : Nat → StatusOutcome) (dataF : Nat → DatasetOutcome α)
        (k : Nat) (a : α) (rest : List α), k < 60 →
        (∀ j, j < k → statusF j = .ok "RUNNING") →
        statusF k = .ok "SUCCEEDED" → dataF k = .okList (a :: rest) →
        (poll_apify_run_with_status statusF dataF).result = some a) ∧
    (∀ (statusF : Nat → StatusOutcome) (dataF : Nat → DatasetOutcome α)
        (k : Nat) (d : α), k < 60 →
        (∀ j, j < k → statusF j = .ok "RUNNING") →
        statusF k = .ok "SUCCEEDED" → dataF k = .okDict d →
        (poll_apify_run_with_status statusF dataF).result = some d) ∧
    (∀ (statusF : Nat → StatusOutcome) (dataF : Nat → DatasetOutcome α) (st : String),
        (st = "FAILED" ∨ st = "TIMED-OUT" ∨ st = "ABORTED") →
        statusF 0 = .ok st →
        poll_apify_run_with_status statusF dataF = ⟨none, 1, 0⟩) ∧
    (∀ (statusF : Nat → StatusOutcome) (dataF : Nat → DatasetOutcome α),
        (∀ j, statusF j = .ok "RUNNING") →
        poll_apify_run_with_status statusF dataF = ⟨none, 60, 60⟩) := by
  refine ⟨?_, ?_, ?_, ?_⟩
  · intro statusF dataF k a rest hk hrun hs hd
    have hrun0 : ∀ j, j < k → statusF (0 + j) = .ok "RUNNING" := by
      intro j hj; simpa using hrun j hj
    show (pollAux statusF dataF 0 60 0 0).result = some a
    rw [pollAux_running_to α statusF dataF k 0 60 0 0 hk hrun0]
    obtain ⟨m, hm⟩ : ∃ m, 60 - k = m + 1 := ⟨60 - k - 1, by omega⟩
    rw [hm, pollAux_succeeded_list statusF dataF (0 + k) m (0 + k) (0 + k) a rest (by simpa using hs)
      (by simpa using hd)]
  · intro statusF dataF k d hk hrun hs hd
    have hrun0 : ∀ j, j < k → statusF (0 + j) = .ok "RUNNING" := by
      intro j hj; simpa using hrun j hj
    show (pollAux statusF dataF 0 60 0 0).result = some d
    rw [pollAux_running_to α statusF dataF k 0 60 0 0 hk hrun0]
    obtain ⟨m, hm⟩ : ∃ m, 60 - k = m + 1 := ⟨60 - k - 1, by omega⟩
    rw [hm, pollAux_succeeded_dict statusF dataF (0 + k) m (0 + k) (0 + k) d (by simpa using hs)
      (by simpa using hd)]
  · intro statusF dataF st hst h
    show pollAux statusF dataF 0 60 0 0 = ⟨none, 1, 0⟩
    exact pollAux_abort statusF dataF 0 59 0 0 st hst h
  · intro statusF dataF h
    show pollAux statusF dataF 0 60 0 0 = ⟨none, 60, 60⟩
    exact pollAux_all_running statusF dataF h 60 0 0 0

/-- C2 witness: the poller theorem applied to concrete mocked endpoints:
SUCCEEDED on the third call with a two-item dataset, ABORTED on the first
call, and RUNNING forever. -/
theorem poll_apify_run_with_status_spec_witness :
    (poll_apify_run_with_status (fun n => if n < 2 then .ok "RUNNING" else .ok "SUCCEEDED")
      (fun _ => DatasetOutcome.okList [7, 8])).result = some 7 ∧
    (poll_apify_run_with_status (fun n => if n < 2 then .ok "RUNNING" else .ok "SUCCEEDED")
      (fun _ => DatasetOutcome.okDict (5 : Nat))).result = some 5 ∧
    poll_apify_run_with_status (fun _ => .ok "ABORTED")
      (fun _ => DatasetOutcome.okList ([] : List Nat)) = ⟨none, 1, 0⟩ ∧
    poll_apify_run_with_status (fun _ => .ok "RUNNING")
      (fun _ => DatasetOutcome.okList ([] : List Nat)) = ⟨none, 60, 60⟩ := by
  refine ⟨?_, ?_, ?_, ?_⟩
  · exact (poll_apify_run_with_status_spec Nat).1 _ _ 2 7 [8] (by decide) (by decide)
      (by decide) rfl
  · exact (poll_apify_run_with_status_spec Nat).2.1 _ _ 2 5 (by decide) (by decide)
      (by decide) rfl
  · exact (poll_apify_run_with_status_spec Nat).2.2.1 _ _ "ABORTED"
      (Or.inr (Or.inr rfl)) rfl
  · exact (poll_apify_run_with_status_spec Nat).2.2.2 _ _ (fun j => rfl)

/-! ### C10 theorems: SUCCEEDED with an empty dataset list -/

/-- C10: when a status query reports SUCCEEDED but the dataset fetch returns
HTTP 200 with an empty list, that iteration neither returns nor sleeps and
the loop immediately issues the next status query; when every attempt has
this outcome, the poller returns null only after all 60 attempts, with 60
status queries and no sleeps. -/
theorem poll_succeeded_empty_dataset (α : Type) :
    (∀ (statusF : Nat → StatusOutcome) (dataF : Nat → DatasetOutcome α)
        (attempt fuel q s : Nat),
        statusF attempt = .ok "SUCCEEDED" → dataF attempt = .okList [] →
        pollAux statusF dataF attempt (fuel + 1) q s =
          pollAux statusF dataF (attempt + 1) fuel (q + 1) s) ∧
    (∀ (statusF : Nat → StatusOutcome) (dataF : Nat → DatasetOutcome α),
        (∀ j, statusF j = .ok "SUCCEEDED" ∧ dataF j = .okList []) →
        poll_apify_run_with_status statusF dataF = ⟨none, 60, 0⟩) := by
  constructor
  · intro statusF dataF attempt fuel q s hs hd
    exact pollAux_step_empty statusF dataF attempt fuel q s hs hd
  · intro statusF dataF h
    show pollAux statusF dataF 0 60 0 0 = ⟨none, 60, 0⟩
    exact pollAux_all_empty statusF dataF h 60 0 0 0

/-- C10 witness: the empty-dataset theorem applied to the constant SUCCEEDED
status oracle with a constant empty dataset list. -/
theorem poll_succeeded_empty_dataset_witness :
    pollAux (fun _ => StatusOutcome.ok "SUCCEEDED")
        (fun _ => DatasetOutcome.okList ([] : List Nat)) 0 5 0 0 =
      pollAux (fun _ => StatusOutcome.ok "SUCCEEDED")
        (fun _ => DatasetOutcome.okList ([] : List Nat)) 1 4 1 0 ∧
    poll_apify_run_with_status (fun _ => StatusOutcome.ok "SUCCEEDED")
        (fun _ => DatasetOutcome.okList ([] : List Nat)) = ⟨none, 60, 0⟩ := by
  constructor
  · exact (poll_succeeded_empty_dataset Nat).1 _ _ 0 4 0 0 rfl rfl
  · exact (poll_succeeded_empty_dataset Nat).2 _ _ (fun j => ⟨rfl, rfl⟩)

/-! ### Fallback template lemmas -/

theorem prefix_chunk3 (a b c r : Str) : a ++ b ++ c <+: a ++ (b ++ (c ++ r)) := by
  refine ⟨r, ?_⟩
  simp [List.append_assoc]

theorem sfx_append_left (x y r : Str) (h : r <:+ y) : r <:+ x ++ y := by
  obtain ⟨u, rfl⟩ := h
  exact ⟨x ++ u, by simp [List.append_assoc]⟩

theorem generate_exact_style_fallback_length (pn sf rd pr pc : Str) :
    (generate_exact_style_fallback pn sf rd pr pc).length = 3 := rfl

theorem fbTemplate1_ne_nil (pn sf rd pr pc : Str) :
    (fbTemplate1 pn sf rd pr pc).isEmpty = false := rfl

theorem fbTemplate2_ne_nil (pn sf rd pr pc : Str) :
    (fbTemplate2 pn sf rd pr pc).isEmpty = false := rfl

theorem fbTemplate3_ne_nil (pn sf rd pr pc : Str) :
    (fbTemplate3 pn sf rd pr pc).isEmpty = false := rfl

theorem generate_exact_style_fallback_all_nonempty (pn sf rd pr pc : Str) :
    (generate_exact_style_fallback pn sf rd pr pc).all (fun m => !m.isEmpty) = true := by
  have h : generate_exact_style_fallback pn sf rd pr pc =
      [fbTemplate1 pn sf rd pr pc, fbTemplate2 pn sf rd pr pc,
       fbTemplate3 pn sf rd pr pc] := rfl
  rw [h]
  simp [fbTemplate1_ne_nil, fbTemplate2_ne_nil, fbTemplate3_ne_nil]

theorem exceptFallback_length (s : SenderInfo) : (exceptFallback s).length = 3 :=
  generate_exact_style_fallback_length _ _ _ _ _

theorem exceptFallback_all_nonempty (s : SenderInfo) :
    (exceptFallback s).all (fun m => !m.isEmpty) = true :=
  generate_exact_style_fallback_all_nonempty _ _ _ _ _

/-! ### Selection lemmas -/

theorem selectMessages_length (cl fb : List Str) (hfb : fb.length = 3) :
    (selectMessages cl fb).length = 3 := by
  unfold selectMessages
  by_cases h3 : 3 ≤ cl.length
  · rw [if_pos h3]
    simp [List.length_take]
    omega
  · rw [if_neg h3]
    by_cases hne : cl = []
    · have h2 : ¬(cl ≠ []) := by simp [hne]
      rw [if_neg h2]
      exact hfb
    · rw [if_pos hne]
      have hpos : 0 < cl.length := List.length_pos.mpr hne
      simp [List.length_take, hfb]
      omega

theorem selectMessages_all (p : Str → Bool) (cl fb : List Str)
    (hcl : cl.all p = true) (hfb : fb.all p = true) :
    (selectMessages cl fb).all p = true := by
  unfold selectMessages
  by_cases h3 : 3 ≤ cl.length
  · rw [if_pos h3]
    exact all_take_of_all p 3 cl hcl
  · rw [if_neg h3]
    by_cases hne : cl = []
    · have h2 : ¬(cl ≠ []) := by simp [hne]
      rw [if_neg h2]
      exact hfb
    · rw [if_pos hne]
      simp only [List.all_append, Bool.and_eq_true]
      exact ⟨hcl, all_take_of_all p _ fb hfb⟩

theorem cleanList_all_nonempty (sf : Str) (msgs : List Str) :
    ((msgs.map (cleanMsg sf)).filter (fun m => 100 < m.length)).all
      (fun m => !m.isEmpty) = true := by
  apply all_filter_of_imp
  intro x hx
  simp only [decide_eq_true_eq] at hx
  cases x with
  | nil => simp at hx
  | cons a t => simp

theorem successPath_length (pn sf rd pr pc c : Str) :
    (successPath pn sf rd pr pc c).length = 3 := by
  unfold successPath
  exact selectMessages_length _ _ (generate_exact_style_fallback_length pn sf rd pr pc)

theorem successPath_all_nonempty (pn sf rd pr pc c : Str) :
    (successPath pn sf rd pr pc c).all (fun m => !m.isEmpty) = true := by
  unfold successPath
  exact selectMessages_all _ _ _ (cleanList_all_nonempty sf _)
    (generate_exact_style_fallback_all_nonempty pn sf rd pr pc)

theorem genViaCall_length (pn sf rd pr pc : Str) (s : SenderInfo) (call : GenCall) :
    (genViaCall pn sf rd pr pc s call).length = 3 := by
  cases call with
  | exn => exact exceptFallback_length s
  | resp code content =>
    simp only [genViaCall]
    by_cases h : code = 200
    · subst h
      rw [if_pos rfl]
      cases content with
      | some c => exact successPath_length pn sf rd pr pc c
      | none => exact exceptFallback_length s
    · rw [if_neg h]
      exact generate_exact_style_fallback_length pn sf rd pr pc

theorem genViaCall_all_nonempty (pn sf rd pr pc : Str) (s : SenderInfo) (call : GenCall) :
    (genViaCall pn sf rd pr pc s call).all (fun m => !m.isEmpty) = true := by
  cases call with
  | exn => exact exceptFallback_all_nonempty s
  | resp code content =>
    simp only [genViaCall]
    by_cases h : code = 200
    · subst h
      rw [if_pos rfl]
      cases content with
      | some c => exact successPath_all_nonempty pn sf rd pr pc c
      | none => exact exceptFallback_all_nonempty s
    · rw [if_neg h]
      exact generate_exact_style_fallback_all_nonempty pn sf rd pr pc

/-! ### C1 theorem: the Message Generator is total -/

/-- C1: for every prospect mapping, sender mapping, optional instructions
and previous message, and every chat-completion outcome (success with
arbitrary text, non-200 status, or an exception, which also covers
timeouts), the message generator returns exactly 3 strings, each non-empty.
The source wraps its body in a catch-all handler, so nothing escapes; the
embedding is correspondingly total, with every raising path mapped to the
handler result. -/
theorem analyze_and_generate_message_total :
    ∀ (p : ProspectData) (s : SenderInfo) (instr prev : Option Str) (call : GenCall),
      (analyze_and_generate_message p s instr prev call).length = 3 ∧
      (analyze_and_generate_message p s instr prev call).all (fun m => !m.isEmpty) = true := by
  intro p s instr prev call
  unfold analyze_and_generate_message
  cases h : senderFirstName s with
  | none => exact ⟨exceptFallback_length s, exceptFallback_all_nonempty s⟩
  | some sf =>
    exact ⟨genViaCall_length _ sf _ _ _ s call, genViaCall_all_nonempty _ sf _ _ _ s call⟩

/-! ### C9 theorem: fallback interpolation -/

/-- C9: for every prospect first name, sender first name, sender role
description, prospect role and company, each of the 3 fallback templates
opens with the line greeting the prospect by name (the greeting is a prefix
of the template) and closes with the signature line carrying the sender
first name (the signature is a suffix of the template). -/
theorem fallback_interpolates_names :
    ∀ pn sf rd pr pc : Str,
      (generate_exact_style_fallback pn sf rd pr pc).length = 3 ∧
      ((sOf "Hi " ++ pn ++ sOf ",") <+:
        (generate_exact_style_fallback pn sf rd pr pc).getD 0 []) ∧
      ((sOf "Best,\n" ++ sf) <:+
        (generate_exact_style_fallback pn sf rd pr pc).getD 0 []) ∧
      ((sOf "Hi " ++ pn ++ sOf ",") <+:
        (generate_exact_style_fallback pn sf rd pr pc).getD 1 []) ∧
      ((sOf "Best,\n" ++ sf) <:+
        (generate_exact_style_fallback pn sf rd pr pc).getD 1 []) ∧
      ((sOf "Hi " ++ pn ++ sOf ",") <+:
        (generate_exact_style_fallback pn sf rd pr pc).getD 2 []) ∧
      ((sOf "Best,\n" ++ sf) <:+
        (generate_exact_style_fallback pn sf rd pr pc).getD 2 []) := by
  intro pn sf rd pr pc
  have h0 : (generate_exact_style_fallback pn sf rd pr pc).getD 0 [] =
      fbTemplate1 pn sf rd pr pc := rfl
  have h1 : (generate_exact_style_fallback pn sf rd pr pc).getD 1 [] =
      fbTemplate2 pn sf rd pr pc := rfl
  have h2 : (generate_exact_style_fallback pn sf rd pr pc).getD 2 [] =
      fbTemplate3 pn sf rd pr pc := rfl
  refine ⟨rfl, ?_, ?_, ?_, ?_, ?_, ?_⟩
  · rw [h0]
    unfold fbTemplate1
    rw [show sOf ",\nYour role " = sOf "," ++ sOf "\nYour role " from rfl]
    simp only [List.append_assoc]
    exact prefix_chunk3 (sOf "Hi ") pn (sOf ",") _
  · rw [h0]
    unfold fbTemplate1
    rw [show sOf ". Would be glad to connect.\nBest,\n" =
      sOf ". Would be glad to connect.\n" ++ sOf "Best,\n" from rfl]
    simp only [List.append_assoc]
    repeat first
      | exact List.suffix_refl _
      | apply sfx_append_left
  · rw [h1]
    unfold fbTemplate2
    rw [show sOf ",\n" = sOf "," ++ sOf "\n" from rfl]
    simp only [List.append_assoc]
    exact prefix_chunk3 (sOf "Hi ") pn (sOf ",") _
  · rw [h1]
    unfold fbTemplate2
    rw [show sOf ". Thought it\x27d be great to connect.\nBest,\n" =
      sOf ". Thought it\x27d be great to connect.\n" ++ sOf "Best,\n" from rfl]
    simp only [List.append_assoc]
    repeat first
      | exact List.suffix_refl _
      | apply sfx_append_left
  · rw [h2]
    unfold fbTemplate3
    rw [show sOf ",\n" = sOf "," ++ sOf "\n" from rfl]
    simp only [List.append_assoc]
    exact prefix_chunk3 (sOf "Hi ") pn (sOf ",") _
  · rw [h2]
    unfold fbTemplate3
    rw [show sOf ". Let\x27s connect and exchange perspectives.\nBest,\n" =
      sOf ". Let\x27s connect and exchange perspectives.\n" ++ sOf "Best,\n" from rfl]
    simp only [List.append_assoc]
    repeat first
      | exact List.suffix_refl _
      | apply sfx_append_left

/-! ### C4 theorems: the Jane and Sam failure scenario -/

/-- C4 counterexample: when the generation call raises (the timeout case
included), the source falls into its catch-all handler and returns the
generic placeholder fallbacks, which do not contain Jane and do not end with
Sam, so the claim fails for the exception half of its failure mode. -/
theorem analyze_jane_sam_exception_cex :
    (analyze_and_generate_message janeProspect samSender none none .exn).all
      (fun m => containsL (sOf "Jane") m && List.isSuffixOf (sOf "Sam") m) = false := by
  decide

/-- C4 amended: with prospect Jane Doe, Engineer at Acme, and sender Sam who
builds tools, a generation call that returns a non-success status yields 3
fallback strings each containing Jane and each ending with Sam; a generation
call that raises instead yields the 3 generic fallbacks built from the
placeholders there and Professional (each ending with Professional). -/
theorem analyze_jane_sam_unavailable_amended :
    (∀ (code : Nat) (content : Option Str), code ≠ 200 →
      (analyze_and_generate_message janeProspect samSender none none
        (.resp code content)).length = 3 ∧
      (analyze_and_generate_message janeProspect samSender none none
        (.resp code content)).all
        (fun m => containsL (sOf "Jane") m && List.isSuffixOf (sOf "Sam") m) = true) ∧
    analyze_and_generate_message janeProspect samSender none none .exn =
      generate_exact_style_fallback (sOf "there") (sOf "Professional")
        (sOf "builds tools") (sOf "their role") (sOf "their company") := by
  constructor
  · intro code content h
    have he : analyze_and_generate_message janeProspect samSender none none
        (.resp code content) =
        genViaCall (sOf "Jane") (sOf "Sam") (sOf "builds tools") (sOf "Engineer")
          (sOf "Acme") samSender (.resp code content) := rfl
    rw [he]
    simp only [genViaCall]
    rw [if_neg h]
    exact ⟨by decide, by decide⟩
  · decide

/-- C4 amended witness: the non-200 half of the amended theorem at status
code 500. -/
theorem analyze_jane_sam_unavailable_witness :
    (500 : Nat) ≠ 200 ∧
    (analyze_and_generate_message janeProspect samSender none none
      (.resp 500 none)).all
      (fun m => containsL (sOf "Jane") m && List.isSuffixOf (sOf "Sam") m) = true :=
  ⟨by decide, (analyze_jane_sam_unavailable_amended.1 500 none (by decide)).2⟩

/-! ### C8 theorems: the extraction priority chain -/

theorem headlineRoleCompany_eq_spec (h : Str) :
    headlineRoleCompany h = (headlineRoleCompanySpec h).getD ([], []) := by
  unfold headlineRoleCompany headlineRoleCompanySpec
  cases hat : containsL (sOf " at ") h with
  | true => simp [hat]
  | false =>
    cases hdash : containsL (sOf " - ") h with
    | false => simp [hat, hdash]
    | true =>
      have h2 : 2 ≤ (splitOnL (sOf " - ") h).length :=
        two_le_splitOnL_length (sOf " - ") h (by decide) hdash
      simp [hat, hdash, h2]

theorem expFallback_eq (rc : Str × Str) (ex : List ExpRec) :
    (if rc.1 = [] ∧ ex ≠ [] then
       match ex with
       | e :: _ => (e.title.getD [], e.company.getD [])
       | [] => rc
     else rc) =
    (if rc.1 = [] then
       match ex with
       | e :: _ => (e.title.getD [], e.company.getD [])
       | [] => rc
     else rc) := by
  by_cases h1 : rc.1 = []
  · cases ex with
    | nil => simp [h1]
    | cons e t => simp [h1]
  · simp [h1]

theorem extractName_eq_spec (p : ProspectData) : extractName p = prospectFirstNameSpec p := by
  rcases p with ⟨fn, bi, hl, ex, ps⟩
  unfold extractName prospectFirstNameSpec
  cases fn with
  | none =>
    cases bi with
    | none => simp [truthy, truthyOpt]
    | some b =>
      rcases b with ⟨bfn⟩
      cases bfn with
      | none => simp [truthy, truthyOpt]
      | some t =>
        by_cases ht : t = []
        · subst ht
          simp [truthy, truthyOpt]
        · simp [truthy, truthyOpt, ht, firstWordOr]
  | some s =>
    by_cases hs : s = []
    · subst hs
      cases bi with
      | none => simp [truthy, truthyOpt]
      | some b =>
        rcases b with ⟨bfn⟩
        cases bfn with
        | none => simp [truthy, truthyOpt]
        | some t =>
          by_cases ht : t = []
          · subst ht
            simp [truthy, truthyOpt]
          · simp [truthy, truthyOpt, ht, firstWordOr]
    · simp [truthy, truthyOpt, hs, firstWordOr]

theorem extractRoleCompany_eq_spec (p : ProspectData) :
    extractRoleCompany p = prospectRoleCompanySpec p := by
  simp only [extractRoleCompany, prospectRoleCompanySpec]
  have hrc : (if truthy p.headline then headlineRoleCompany (p.headline.getD [])
      else ([], [])) =
      ((match truthyOpt p.headline with
        | some h => headlineRoleCompanySpec h
        | none => none).getD (([] : Str), ([] : Str))) := by
    cases hl : p.headline with
    | none => simp [truthy, truthyOpt, hl]
    | some h =>
      by_cases hh : h = []
      · subst hh
        simp [truthy, truthyOpt, hl]
      · simp [truthy, truthyOpt, hl, hh, headlineRoleCompany_eq_spec h]
  rw [hrc]
  exact expFallback_eq _ p.experience

/-- C8: the prospect extraction of the message generator follows the claimed
priority chain: the first name comes from the usable top-level full-name
field, else from the usable nested basic-info full-name field, else is the
literal there; role and company come from splitting the headline on the at
separator first (role before it, company from the piece after it) and
failing that on the dash separator; and when the headline produced no role,
role and company fall back to title and company of the first work-experience
entry.  Stated as agreement between the source extraction and the chain as
the specification words it. -/
theorem extraction_priority_chain :
    ∀ p : ProspectData,
      extractName p = prospectFirstNameSpec p ∧
      extractRoleCompany p = prospectRoleCompanySpec p := by
  intro p
  exact ⟨extractName_eq_spec p, extractRoleCompany_eq_spec p⟩
